import Mathlib

/-!
Shallow embedding of the edge-scoring core of the `nba-edge-finder`
repository: the expected-value calculator, confidence scorer, streak
detector, performance-factor extractor, parlay combinatorics and the
tactical filter engine.  Python floats are modelled as exact rationals
(reals where a square root occurs); Python's `round` (banker's rounding,
round-half-to-even) is modelled exactly on those numbers.
-/

namespace NbaEdge

/-- Python's built-in `round` to an integer: round half to even. -/
def pyRound (x : ℚ) : ℤ :=
  let f := ⌊x⌋
  let frac := x - f
  if frac < 1/2 then f
  else if 1/2 < frac then f + 1
  else if f % 2 = 0 then f else f + 1

/-- Python `round(x, 1)`. -/
def round1 (x : ℚ) : ℚ := (pyRound (x * 10) : ℚ) / 10

/-- Python `round(x, 2)`. -/
def round2 (x : ℚ) : ℚ := (pyRound (x * 100) : ℚ) / 100

/-- Python `round(x, 3)`. -/
def round3 (x : ℚ) : ℚ := (pyRound (x * 1000) : ℚ) / 1000

/-- The result dictionary of `calculate_expected_value`
(`advanced_analytics.py`). -/
structure EVResult where
  ev : ℚ
  ev_percentage : ℚ
  market_edge : ℚ
  implied_probability : ℚ
  kelly_fraction : ℚ
  payout : ℚ
  is_positive_ev : Bool
  deriving Repr, DecidableEq

/-- `calculate_expected_value(probability, odds, bet_amount)` from
`advanced_analytics.py`, embedded line by line.  `odds` are nonzero
American odds; the Python `100 / abs(odds)` for `odds = 0` would raise,
which the caller must avoid. -/
def calculate_expected_value (probability : ℚ) (odds : ℤ) (bet_amount : ℚ) : EVResult :=
  let prob_decimal := probability / 100
  let decimal_odds : ℚ := if 0 < odds then (odds : ℚ) / 100 + 1 else 100 / (|odds| : ℚ) + 1
  let payout := bet_amount * (decimal_odds - 1)
  let ev := prob_decimal * payout - (1 - prob_decimal) * bet_amount
  let ev_percentage := ev / bet_amount * 100
  let implied_prob := 1 / decimal_odds
  let market_edge := (prob_decimal - implied_prob) * 100
  let kelly_raw := (prob_decimal * decimal_odds - 1) / (decimal_odds - 1)
  let kelly_fraction := max 0 (min kelly_raw (1/4))
  { ev := round2 ev
    ev_percentage := round2 ev_percentage
    market_edge := round2 market_edge
    implied_probability := round2 (implied_prob * 100)
    kelly_fraction := round2 (kelly_fraction * 100)
    payout := round2 payout
    is_positive_ev := decide (0 < ev) }

/-- Modelled from the spec, section 4.1: decimal odds from American odds. -/
def specDecimalOdds (odds : ℤ) : ℚ :=
  if 0 < odds then (odds : ℚ) / 100 + 1 else 100 / (|odds| : ℚ) + 1

/-- Modelled from the spec, section 4.2: payout. -/
def specPayout (odds : ℤ) (bet_amount : ℚ) : ℚ :=
  bet_amount * (specDecimalOdds odds - 1)

/-- Modelled from the spec, section 4.2: unrounded expected value. -/
def specEV (probability : ℚ) (odds : ℤ) (bet_amount : ℚ) : ℚ :=
  (probability / 100) * specPayout odds bet_amount
    - (1 - probability / 100) * bet_amount

/-- Modelled from the spec, section 4.2: ev percentage. -/
def specEVPct (probability : ℚ) (odds : ℤ) (bet_amount : ℚ) : ℚ :=
  specEV probability odds bet_amount / bet_amount * 100

/-- Modelled from the spec, section 4.2: implied probability (percent). -/
def specImpliedProb (odds : ℤ) : ℚ := 1 / specDecimalOdds odds * 100

/-- Modelled from the spec, section 4.2: market edge (percentage points). -/
def specMarketEdge (probability : ℚ) (odds : ℤ) : ℚ :=
  (probability / 100 - 1 / specDecimalOdds odds) * 100

/-- The slice of the `ev_data` dictionary that `calculate_confidence_score`
reads (each `.get(key, 0)` becomes a plain field). -/
structure EVData where
  ev : ℚ
  ev_percentage : ℚ
  market_edge : ℚ
  kelly_fraction : ℚ

/-- The slice of the `factors` dictionary read by
`calculate_confidence_score`: `minutes_trend`, `minutes_cv`, `recent_dnp`.
A missing key is the default value (`""`, `0`, `false`). -/
structure FactorsIn where
  minutes_trend : String
  minutes_cv : ℚ
  recent_dnp : Bool

/-- `streak_info['analytics']['ev_adjustment']` slice. -/
structure EVAdjustIn where
  adjustment_pct : ℚ

/-- `streak_info['analytics']['regression']` slice. -/
structure RegressionIn where
  risk_level : String

/-- `streak_info['analytics']` slice; `none` models an absent (or falsy)
sub-dictionary. -/
structure AnalyticsIn where
  ev_adjustment : Option EVAdjustIn
  regression : Option RegressionIn

/-- The slice of `streak_info` read by `calculate_confidence_score`. -/
structure StreakInfoIn where
  active : Bool
  streak_count : ℚ
  analytics : Option AnalyticsIn

/-- The five-entry `breakdown` dictionary of the confidence result. -/
structure Breakdown where
  probability_contribution : ℚ
  ev_contribution : ℚ
  edge_contribution : ℚ
  streak_contribution : ℚ
  factor_contribution : ℚ

/-- The result dictionary of `calculate_confidence_score`. -/
structure ConfidenceResult where
  confidence_score : ℚ
  grade : String
  grade_description : String
  risk_tier : String
  risk_color : String
  risk_description : String
  risk_factors : ℚ
  suggested_stake_pct : ℚ
  units : ℚ
  stake_label : String
  breakdown : Breakdown

/-- The grade / description chain of `calculate_confidence_score`
(`advanced_analytics.py` lines 122-154), embedded verbatim. -/
def gradeLetter (s : ℚ) : String × String :=
  if 95 ≤ s then ("A+", "Elite Lock")
  else if 90 ≤ s then ("A", "Strong Play")
  else if 85 ≤ s then ("A-", "Very Good")
  else if 80 ≤ s then ("B+", "Good Value")
  else if 75 ≤ s then ("B", "Solid")
  else if 70 ≤ s then ("B-", "Above Average")
  else if 65 ≤ s then ("C+", "Moderate")
  else if 60 ≤ s then ("C", "Average")
  else if 55 ≤ s then ("C-", "Below Average")
  else if 50 ≤ s then ("D", "Risky")
  else ("F", "Avoid")

/-- Risk tier, color and description chain (`advanced_analytics.py`
lines 188-199). -/
def riskTriple (rf : ℚ) : String × String × String :=
  if rf ≤ 1 then ("Low", "green", "Safe bet with strong fundamentals")
  else if rf ≤ 3 then ("Medium", "yellow", "Reasonable risk with good upside")
  else ("High", "red", "Elevated risk - bet with caution")

/-- `calculate_confidence_score(probability, ev_data, edge_data, factors,
streak_info)` from `advanced_analytics.py`, embedded line by line.  The
Python `edge_data` parameter is never read by the function body and is
omitted.  Python truthiness is modelled exactly: a number is truthy iff
nonzero (`if cv and cv < 15`), a nested dictionary is truthy iff present
(`Option.isSome`). -/
def calculate_confidence_score (probability : ℚ) (ev_data : EVData)
    (factors : Option FactorsIn) (streak_info : Option StreakInfoIn) : ConfidenceResult :=
  let prob_score := probability * (4/10)
  let ev := ev_data.ev
  let ev_pct := ev_data.ev_percentage
  let ev_score := if 0 < ev then min 25 (max 0 (ev_pct * (5/2))) else 0
  let market_edge := ev_data.market_edge
  let edge_score := if 0 < market_edge then min 20 (max 0 (market_edge * (133/100))) else 0
  let streak_score : ℚ :=
    match streak_info with
    | none => 0
    | some s =>
      if s.active then
        let base := min 10 (s.streak_count * (5/2))
        let base :=
          match s.analytics with
          | none => base
          | some a =>
            match a.ev_adjustment with
            | none => base
            | some adj => base + max (-5) (min 5 (adj.adjustment_pct / 2))
        match s.analytics with
        | none => base
        | some a =>
          match a.regression with
          | none => base
          | some r =>
            if r.risk_level = "high" then max 0 (base - 5)
            else if r.risk_level = "medium" then max 0 (base - 2)
            else base
      else 0
  let factor_score : ℚ :=
    match factors with
    | none => 0
    | some f =>
      (if f.minutes_trend = "up" then 2 else 0)
        + (if f.minutes_cv ≠ 0 ∧ f.minutes_cv < 15 then 2 else 0)
        + (if f.recent_dnp then 0 else 1)
  let raw_score := prob_score + ev_score + edge_score + streak_score + factor_score
  let confidence_score := round1 (min 100 (max 0 raw_score))
  let gl := gradeLetter confidence_score
  let risk_factors : ℚ :=
    (if probability < 60 then 2 else if probability < 70 then 1 else 0)
      + (if ev < 0 then 2 else if ev < 5 then 1 else 0)
      + (match factors with
         | some f => if 20 < f.minutes_cv then 1 else 0
         | none => 0)
      + (match factors with
         | some f => if f.recent_dnp then 2 else 0
         | none => 0)
      + (match factors with
         | some f => if f.minutes_trend = "down" then 1 else 0
         | none => 0)
      + (if (match streak_info with | some s => s.active | none => false) then 0 else 1/2)
  let rt := riskTriple risk_factors
  let kelly := ev_data.kelly_fraction / 100
  let risk_multiplier : ℚ :=
    if rt.1 = "Low" then 1
    else if rt.1 = "Medium" then 7/10
    else if rt.1 = "High" then 4/10
    else 1/2
  let confidence_multiplier := confidence_score / 100
  let base_stake := kelly * risk_multiplier * confidence_multiplier
  let stake_band : ℚ × ℚ :=
    if 90 ≤ confidence_score then (3/100, 5/100)
    else if 80 ≤ confidence_score then (2/100, 4/100)
    else if 70 ≤ confidence_score then (1/100, 3/100)
    else if 60 ≤ confidence_score then (1/200, 2/100)
    else (1/200, 1/100)
  let suggested_stake := max stake_band.1 (min stake_band.2 base_stake)
  let suggested_stake_pct := round2 (suggested_stake * 100)
  let units := round1 (suggested_stake * 100)
  let stake_label :=
    if 4 ≤ suggested_stake_pct then "MAX BET"
    else if 3 ≤ suggested_stake_pct then "Strong"
    else if 2 ≤ suggested_stake_pct then "Standard"
    else if 1 ≤ suggested_stake_pct then "Light"
    else "Minimal"
  { confidence_score := confidence_score
    grade := gl.1
    grade_description := gl.2
    risk_tier := rt.1
    risk_color := rt.2.1
    risk_description := rt.2.2
    risk_factors := round1 risk_factors
    suggested_stake_pct := suggested_stake_pct
    units := units
    stake_label := stake_label
    breakdown :=
      { probability_contribution := round1 prob_score
        ev_contribution := round1 ev_score
        edge_contribution := round1 edge_score
        streak_contribution := round1 streak_score
        factor_contribution := round1 factor_score } }

/-- Modelled from the spec: the 11-tier grade table with inclusive lower
bounds (≥95 A+, ≥90 A, ≥85 A-, ≥80 B+, ≥75 B, ≥70 B-, ≥65 C+, ≥60 C,
≥55 C-, ≥50 D, else F; no D+ tier). -/
def gradeOf (s : ℚ) : String :=
  if 95 ≤ s then "A+"
  else if 90 ≤ s then "A"
  else if 85 ≤ s then "A-"
  else if 80 ≤ s then "B+"
  else if 75 ≤ s then "B"
  else if 70 ≤ s then "B-"
  else if 65 ≤ s then "C+"
  else if 60 ≤ s then "C"
  else if 55 ≤ s then "C-"
  else if 50 ≤ s then "D"
  else "F"

/-- Rank of a confidence grade, low to high, used to state that the grade
is a non-decreasing function of the score. -/
def gradeRank (g : String) : ℕ :=
  if g = "A+" then 10
  else if g = "A" then 9
  else if g = "A-" then 8
  else if g = "B+" then 7
  else if g = "B" then 6
  else if g = "B-" then 5
  else if g = "C+" then 4
  else if g = "C" then 3
  else if g = "C-" then 2
  else if g = "D" then 1
  else 0

/-- One game observation as produced by `fetch_recent_games`
(`nba_engine.py`): the fields read by the scoring core. -/
structure Game where
  stat_value : ℚ
  minutes : ℚ
  did_not_play : Bool
  fgm : ℚ
  fga : ℚ

/-- The result dictionary of `calculate_streak`. -/
structure StreakResult where
  streak_count : ℕ
  streak_type : Option String
  active : Bool
  deriving Repr, DecidableEq

/-- Classification of one observation against the line inside the
`calculate_streak` loop: `OVER` (value > line), `UNDER` (value < line),
`none` for a tie. -/
def classifyHit (stat_value line : ℚ) : Option String :=
  if line < stat_value then some "OVER"
  else if stat_value < line then some "UNDER"
  else none

/-- The `for game in games_list` loop of `calculate_streak`
(`nba_engine.py` lines 188-205), with the running
`(current_streak, streak_type)` state made explicit.  A tie or a change
of direction stops the iteration without counting. -/
def streakLoop (games_list : List ℚ) (line : ℚ) (current_streak : ℕ)
    (streak_type : Option String) : ℕ × Option String :=
  match games_list with
  | [] => (current_streak, streak_type)
  | v :: rest =>
    match classifyHit v line with
    | none => (current_streak, streak_type)
    | some hit =>
      match streak_type with
      | none => streakLoop rest line 1 (some hit)
      | some ty =>
        if ty = hit then streakLoop rest line (current_streak + 1) (some ty)
        else (current_streak, some ty)

/-- `calculate_streak(player_name, line, ..., min_streak)` from
`nba_engine.py`, embedded over the fetched observation values
(most-recent-first).  `if not games_list or len(games_list) < min_streak`
is the first guard. -/
def calculate_streak (games_list : List ℚ) (line : ℚ) (min_streak : ℕ) : StreakResult :=
  if games_list = [] ∨ games_list.length < min_streak then
    { streak_count := 0, streak_type := none, active := false }
  else
    let r := streakLoop games_list line 0 none
    { streak_count := r.1, streak_type := r.2, active := decide (min_streak ≤ r.1) }

/-- Modelled from the spec, section 4.4: the streak count is the length of
the maximal prefix of observations classified to the same direction as
the first one, with a tie or a direction change terminating it. -/
def specStreakCount (obs : List ℚ) (line : ℚ) : ℕ :=
  match obs with
  | [] => 0
  | v :: rest =>
    match classifyHit v line with
    | none => 0
    | some d => 1 + (rest.takeWhile (fun w => decide (classifyHit w line = some d))).length

/-- Modelled from the spec, section 4.4: the streak type is the
classification of the most recent observation (null on a tie or no
observations). -/
def specStreakType (obs : List ℚ) (line : ℚ) : Option String :=
  match obs with
  | [] => none
  | v :: _ => classifyHit v line

/-- `sum(values) / len(values)`: arithmetic mean of a list. -/
def listMean (l : List ℚ) : ℚ := l.sum / l.length

/-- `pd.Series(minutes_list).std()`: pandas' default standard deviation,
which uses `ddof=1` (the sample standard deviation
`sqrt(sum((x - mean)^2) / (n - 1))`). -/
noncomputable def pandasStd (l : List ℚ) : ℝ :=
  Real.sqrt (((((l.map (fun x => (x - listMean l) ^ 2)).sum : ℚ) : ℝ)) / ((l.length : ℝ) - 1))

/-- Python `round(x, 1)` on the real result of a float computation. -/
noncomputable def pyRoundR (x : ℝ) : ℤ :=
  let f := ⌊x⌋
  let frac := x - f
  if frac < 1/2 then f
  else if 1/2 < frac then f + 1
  else if f % 2 = 0 then f else f + 1

/-- `round(x, 1)` over ℝ. -/
noncomputable def round1R (x : ℝ) : ℝ := (pyRoundR (x * 10) : ℝ) / 10

/-- The `minutes_variance` field of `get_player_performance_factors`
(`nba_engine.py`): `pd.Series(minutes_list).std() if len(minutes_list) > 1
else 0`, rounded to 1 decimal in the result dictionary. -/
noncomputable def minutes_variance (games_list : List Game) : ℝ :=
  let minutes_list := games_list.map (fun g => g.minutes)
  if 1 < minutes_list.length then round1R (pandasStd minutes_list) else 0

/-- Modelled from the spec, section 4.3: the population standard
deviation of the minutes across all supplied observations
(`sqrt(sum((x - mean)^2) / n)`). -/
noncomputable def popStd (l : List ℚ) : ℝ :=
  Real.sqrt (((((l.map (fun x => (x - listMean l) ^ 2)).sum : ℚ) : ℝ)) / (l.length : ℝ))

/-- The sample (`ddof=1`) standard deviation written with the
sum-of-squares formula `sqrt((sum(x^2) - (sum x)^2 / n) / (n - 1))`,
used as the independent reference for the amended claim. -/
noncomputable def sampleStd (l : List ℚ) : ℝ :=
  Real.sqrt (((((l.map (fun x => x ^ 2)).sum - l.sum ^ 2 / l.length : ℚ) : ℝ)) / ((l.length : ℝ) - 1))

/-- The `shooting_efficiency` field of `get_player_performance_factors`
(`nba_engine.py` lines 443-464): mean of per-game `fgm/fga` over the
first 5 games with `fga > 0` (as a percentage, rounded to 1 decimal);
`None` when the list is empty — and also, through Python truthiness of
`avg_fg_pct`, when the mean itself is `0.0`. -/
def shooting_efficiency (games_list : List Game) : Option ℚ :=
  let fg_pct_recent := (games_list.take 5).filterMap
    (fun g => if 0 < g.fga then some (g.fgm / g.fga) else none)
  if fg_pct_recent = [] then none
  else
    let avg_fg_pct := fg_pct_recent.sum / fg_pct_recent.length
    if avg_fg_pct = 0 then none else some (round1 (avg_fg_pct * 100))

/-- Modelled from the spec, section 4.3: the first-5 games with attempts. -/
def qualifyingGames (games_list : List Game) : List Game :=
  (games_list.take 5).filter (fun g => decide (0 < g.fga))

/-- Modelled from the spec, section 4.3: mean per-game FG ratio over the
qualifying games. -/
def specShootingEff (games_list : List Game) : ℚ :=
  listMean ((qualifyingGames games_list).map (fun g => g.fgm / g.fga))

/-- An edge record as consumed by `find_best_parlays`
(`parlay_calculator.py`): the keys it reads. -/
structure ParlayEdge where
  player : String
  line : ℚ
  recommendation : String
  probability : ℚ
  edge : ℚ

/-- One leg ("bet") of a parlay as built inside `find_best_parlays`. -/
structure ParlayBet where
  player : String
  line : ℚ
  recommendation : String
  probability : ℚ
  odds : ℤ
  edge : ℚ

/-- The payout dictionary of `calculate_parlay_payout`. -/
structure ParlayPayout where
  num_bets : ℕ
  combined_probability : ℚ
  decimal_odds : ℚ
  american_odds : ℤ
  payout_per_100 : ℚ
  profit_per_100 : ℚ
  implied_probability : ℚ
  edge : ℚ
  expected_value : ℚ

/-- Python `int(x)`: truncation toward zero. -/
def intTrunc (q : ℚ) : ℤ := if 0 ≤ q then ⌊q⌋ else -⌊-q⌋

/-- `calculate_parlay_payout(bets)` from `parlay_calculator.py` (the
default `odds_format='american'` path used by `find_best_parlays`).
The Python `{'valid': False, ...}` dictionary for fewer than 2 bets is
modelled as `none`. -/
def calculate_parlay_payout (bets : List ParlayBet) : Option ParlayPayout :=
  if bets.length < 2 then none
  else
    let decimal_odds := bets.map
      (fun b => if 0 < b.odds then (b.odds : ℚ) / 100 + 1 else 100 / (|b.odds| : ℚ) + 1)
    let probabilities := bets.map (fun b => b.probability / 100)
    let combined_prob := probabilities.prod
    let combined_decimal := decimal_odds.prod
    let american_odds :=
      if 2 ≤ combined_decimal then intTrunc ((combined_decimal - 1) * 100)
      else intTrunc (-100 / (combined_decimal - 1))
    let payout_100 := (combined_decimal - 1) * 100
    some
      { num_bets := bets.length
        combined_probability := round2 (combined_prob * 100)
        decimal_odds := round3 combined_decimal
        american_odds := american_odds
        payout_per_100 := round2 payout_100
        profit_per_100 := round2 payout_100
        implied_probability := round2 (1 / combined_decimal * 100)
        edge := round2 (combined_prob * 100 - 1 / combined_decimal * 100)
        expected_value := round2 (combined_prob * payout_100 - 100) }

/-- A scored parlay as appended to the `parlays` list in
`find_best_parlays`. -/
structure Parlay where
  bets : List ParlayBet
  payout : ParlayPayout
  total_probability : ℚ
  expected_value : ℚ
  edge : ℚ
  score : ℚ

/-- `itertools.combinations` on a list: all size-`k` subsequences in
lexicographic index order. -/
def combinations {α : Type} : ℕ → List α → List (List α)
  | 0, _ => [[]]
  | _ + 1, [] => []
  | k + 1, x :: xs => ((combinations k xs).map (fun c => x :: c)) ++ combinations (k + 1) xs

/-- Building one leg inside `find_best_parlays`: the per-leg fair-odds
estimate computed from the probability is discarded and every leg is
standardized to `-110`. -/
def mkParlayBet (e : ParlayEdge) : ParlayBet :=
  { player := e.player
    line := e.line
    recommendation := e.recommendation
    probability := e.probability
    odds := -110
    edge := e.edge }

/-- Stable insertion into a descending-by-score list: the new element goes
after every element with score ≥ its own. -/
def insertByScore (p : Parlay) : List Parlay → List Parlay
  | [] => [p]
  | q :: qs => if q.score < p.score then p :: q :: qs else q :: insertByScore p qs

/-- `parlays.sort(key=lambda x: x['score'], reverse=True)`: Python's sort
is stable, and a stable descending sort is uniquely determined by the key
order, so stable insertion sort is extensionally the same function. -/
def sortByScoreDesc : List Parlay → List Parlay
  | [] => []
  | p :: ps => insertByScore p (sortByScoreDesc ps)

/-- `find_best_parlays(edges, parlay_size, max_recommendations)` from
`parlay_calculator.py`, embedded line by line. -/
def find_best_parlays (edges : List ParlayEdge) (parlay_size : ℕ)
    (max_recommendations : ℕ) : List Parlay :=
  if edges.length < parlay_size then []
  else
    let high_prob_edges := edges.filter (fun e => decide (70 ≤ e.probability))
    if high_prob_edges.length < parlay_size then []
    else
      let all_combinations := combinations parlay_size high_prob_edges
      let parlays := all_combinations.filterMap (fun combo =>
        let bets := combo.map mkParlayBet
        match calculate_parlay_payout bets with
        | none => none
        | some payout_info => some
            { bets := bets
              payout := payout_info
              total_probability := payout_info.combined_probability
              expected_value := payout_info.expected_value
              edge := payout_info.edge
              score := payout_info.expected_value + payout_info.edge * 10 })
      (sortByScoreDesc parlays).take max_recommendations

/-- The `{2,3,4,6}`-keyed recommendation dictionary of
`recommend_parlays`. -/
structure ParlayRecommendations where
  two_man : List Parlay
  three_man : List Parlay
  four_man : List Parlay
  six_man : List Parlay

/-- `recommend_parlays(edges)` from `parlay_calculator.py`. -/
def recommend_parlays (edges : List ParlayEdge) : ParlayRecommendations :=
  { two_man := find_best_parlays edges 2 5
    three_man := find_best_parlays edges 3 5
    four_man := find_best_parlays edges 4 5
    six_man := find_best_parlays edges 6 3 }

/-- An enriched edge record as consumed by `apply_tactical_filters`
(`advanced_analytics.py`): the nested `.get` chains become plain fields
with the code's defaults. -/
structure FilterEdge where
  probability : ℚ
  grade_numeric : ℚ
  market_edge : ℚ
  is_positive_ev : Bool
  injury_risk : Bool
  rotation_change : Bool
  ev : ℚ

/-- The `grade_order` table of `filter_by_grade`
(`advanced_analytics.py` lines 544-546), with `.get(min_grade, 0.0)`. -/
def grade_order (g : String) : ℚ :=
  if g = "A+" then 43/10
  else if g = "A" then 4
  else if g = "A-" then 37/10
  else if g = "B+" then 33/10
  else if g = "B" then 3
  else if g = "B-" then 27/10
  else if g = "C+" then 23/10
  else if g = "C" then 2
  else if g = "C-" then 17/10
  else if g = "D+" then 13/10
  else if g = "D" then 1
  else 0

/-- `filter_by_probability` from `advanced_analytics.py`. -/
def filter_by_probability (edges : List FilterEdge) (min_probability : ℚ) : List FilterEdge :=
  edges.filter (fun e => decide (min_probability ≤ e.probability))

/-- `filter_by_grade` from `advanced_analytics.py`. -/
def filter_by_grade (edges : List FilterEdge) (min_grade : String) : List FilterEdge :=
  edges.filter (fun e => decide (grade_order min_grade ≤ e.grade_numeric))

/-- `filter_by_market_edge` from `advanced_analytics.py`. -/
def filter_by_market_edge (edges : List FilterEdge) (min_edge : ℚ) : List FilterEdge :=
  edges.filter (fun e => decide (min_edge ≤ e.market_edge))

/-- `filter_positive_ev` from `advanced_analytics.py`. -/
def filter_positive_ev (edges : List FilterEdge) : List FilterEdge :=
  edges.filter (fun e => e.is_positive_ev)

/-- The filter-configuration dictionary of `apply_tactical_filters`;
`none` models an absent key. -/
structure TacticalFilters where
  min_probability : Option ℚ
  min_grade : Option String
  min_market_edge : Option ℚ
  positive_ev_only : Option Bool
  exclude_injuries : Option Bool
  exclude_rotation_changes : Option Bool
  min_ev : Option ℚ

/-- Python truthiness of `filters.get(key)` for a numeric value: absent or
zero is falsy. -/
def truthyQ : Option ℚ → Bool
  | none => false
  | some q => decide (q ≠ 0)

/-- Python truthiness for a boolean value: absent or `False` is falsy. -/
def truthyB : Option Bool → Bool
  | none => false
  | some b => b

/-- Python truthiness for a string value: absent or `""` is falsy. -/
def truthyS : Option String → Bool
  | none => false
  | some s => decide (s ≠ "")

/-- `apply_tactical_filters(edges, filters)` from `advanced_analytics.py`,
embedded stage by stage in the code's order. -/
def apply_tactical_filters (edges : List FilterEdge) (filters : TacticalFilters) : List FilterEdge :=
  let filtered := edges
  let filtered := if truthyQ filters.min_probability then
    filter_by_probability filtered (filters.min_probability.getD 0) else filtered
  let filtered := if truthyS filters.min_grade then
    filter_by_grade filtered (filters.min_grade.getD "") else filtered
  let filtered := if truthyQ filters.min_market_edge then
    filter_by_market_edge filtered (filters.min_market_edge.getD 0) else filtered
  let filtered := if truthyB filters.positive_ev_only then
    filter_positive_ev filtered else filtered
  let filtered := if truthyB filters.exclude_injuries then
    filtered.filter (fun e => !e.injury_risk) else filtered
  let filtered := if truthyB filters.exclude_rotation_changes then
    filtered.filter (fun e => !e.rotation_change) else filtered
  let filtered := if truthyQ filters.min_ev then
    filtered.filter (fun e => decide (filters.min_ev.getD 0 ≤ e.ev)) else filtered
  filtered

/-- Normalization of a configuration: every falsy value becomes an absent
key. -/
def normQ (v : Option ℚ) : Option ℚ := if truthyQ v then v else none

/-- Normalization of a boolean configuration value. -/
def normB (v : Option Bool) : Option Bool := if truthyB v then v else none

/-- Normalization of a string configuration value. -/
def normS (v : Option String) : Option String := if truthyS v then v else none

/-- A configuration with every falsy value replaced by an absent key. -/
def normalizeFilters (f : TacticalFilters) : TacticalFilters :=
  { min_probability := normQ f.min_probability
    min_grade := normS f.min_grade
    min_market_edge := normQ f.min_market_edge
    positive_ev_only := normB f.positive_ev_only
    exclude_injuries := normB f.exclude_injuries
    exclude_rotation_changes := normB f.exclude_rotation_changes
    min_ev := normQ f.min_ev }

/-! ### Helper lemmas about Python rounding -/

lemma le_pyRound (x : ℚ) : x - 1/2 ≤ (pyRound x : ℚ) := by
  have h1 := Int.floor_le x
  have h2 := Int.lt_floor_add_one x
  simp only [pyRound]
  split_ifs <;> push_cast <;> linarith

lemma pyRound_le (x : ℚ) : (pyRound x : ℚ) ≤ x + 1/2 := by
  have h1 := Int.floor_le x
  have h2 := Int.lt_floor_add_one x
  simp only [pyRound]
  split_ifs <;> push_cast <;> linarith

lemma pyRound_nonneg {x : ℚ} (h : 0 ≤ x) : 0 ≤ pyRound x := by
  have hb := le_pyRound x
  by_contra hneg
  push_neg at hneg
  have h1 : pyRound x ≤ -1 := by omega
  have h2 : (pyRound x : ℚ) ≤ -1 := by exact_mod_cast h1
  linarith

lemma pyRound_le_of_le {x : ℚ} {n : ℤ} (h : x ≤ (n : ℚ)) : pyRound x ≤ n := by
  have hb := pyRound_le x
  by_contra hgt
  push_neg at hgt
  have h1 : n + 1 ≤ pyRound x := by omega
  have h2 : (n : ℚ) + 1 ≤ (pyRound x : ℚ) := by exact_mod_cast h1
  linarith

lemma round1_nonneg {x : ℚ} (h : 0 ≤ x) : 0 ≤ round1 x := by
  have h10 : (0 : ℚ) ≤ x * 10 := by linarith
  have := pyRound_nonneg h10
  have hc : (0 : ℚ) ≤ (pyRound (x * 10) : ℚ) := by exact_mod_cast this
  unfold round1
  linarith

lemma round1_le_of_le {x : ℚ} {n : ℤ} (h : x ≤ (n : ℚ)) : round1 x ≤ (n : ℚ) := by
  have h10 : x * 10 ≤ ((10 * n : ℤ) : ℚ) := by push_cast; linarith
  have := pyRound_le_of_le h10
  have hc : (pyRound (x * 10) : ℚ) ≤ ((10 * n : ℤ) : ℚ) := by exact_mod_cast this
  unfold round1
  push_cast at hc ⊢
  linarith

lemma round2_nonneg {x : ℚ} (h : 0 ≤ x) : 0 ≤ round2 x := by
  have h100 : (0 : ℚ) ≤ x * 100 := by linarith
  have := pyRound_nonneg h100
  have hc : (0 : ℚ) ≤ (pyRound (x * 100) : ℚ) := by exact_mod_cast this
  unfold round2
  linarith

lemma round2_le_of_le {x : ℚ} {n : ℤ} (h : x ≤ (n : ℚ)) : round2 x ≤ (n : ℚ) := by
  have h100 : x * 100 ≤ ((100 * n : ℤ) : ℚ) := by push_cast; linarith
  have := pyRound_le_of_le h100
  have hc : (pyRound (x * 100) : ℚ) ≤ ((100 * n : ℤ) : ℚ) := by exact_mod_cast this
  unfold round2
  push_cast at hc ⊢
  linarith

/-! ### C1: expected-value calculator matches the spec's reference
computation -/

/-- C1.  For every probability `p ∈ [0,100]`, nonzero American odds `o`
and bet amount `b > 0`, `calculate_expected_value` returns exactly the
spec's reference computation (payout, ev, ev%, implied probability and
market edge, each rounded to 2 decimals) with `is_positive_ev` true
exactly when the unrounded ev is positive; and at `p = 75`, `o = -110`,
`b = 100` it returns payout 90.91, ev 43.18, ev% 43.18, implied
probability 52.38 and market edge 22.62. -/
theorem calculate_expected_value_matches_spec :
    (∀ (p : ℚ) (o : ℤ) (b : ℚ), 0 ≤ p → p ≤ 100 → o ≠ 0 → 0 < b →
      (calculate_expected_value p o b).payout = round2 (specPayout o b) ∧
      (calculate_expected_value p o b).ev = round2 (specEV p o b) ∧
      (calculate_expected_value p o b).ev_percentage = round2 (specEVPct p o b) ∧
      (calculate_expected_value p o b).implied_probability = round2 (specImpliedProb o) ∧
      (calculate_expected_value p o b).market_edge = round2 (specMarketEdge p o) ∧
      ((calculate_expected_value p o b).is_positive_ev = true ↔ 0 < specEV p o b)) ∧
    (calculate_expected_value 75 (-110) 100).payout = 9091/100 ∧
    (calculate_expected_value 75 (-110) 100).ev = 4318/100 ∧
    (calculate_expected_value 75 (-110) 100).ev_percentage = 4318/100 ∧
    (calculate_expected_value 75 (-110) 100).implied_probability = 5238/100 ∧
    (calculate_expected_value 75 (-110) 100).market_edge = 2262/100 := by
  constructor
  · intro p o b _ _ _ _
    refine ⟨rfl, rfl, rfl, rfl, rfl, ?_⟩
    simp [calculate_expected_value, specEV, specPayout, specDecimalOdds]
  · refine ⟨?_, ?_, ?_, ?_, ?_⟩ <;>
      norm_num [calculate_expected_value, round2, pyRound]

/-- Witness for C1 at the spec's worked example. -/
theorem calculate_expected_value_matches_spec_witness :
    (0 : ℚ) ≤ 75 ∧ (75 : ℚ) ≤ 100 ∧ (-110 : ℤ) ≠ 0 ∧ (0 : ℚ) < 100 ∧
    (calculate_expected_value 75 (-110) 100).payout = round2 (specPayout (-110) 100) ∧
    ((calculate_expected_value 75 (-110) 100).is_positive_ev = true ↔
      0 < specEV 75 (-110) 100) := by
  have h := calculate_expected_value_matches_spec.1 75 (-110) 100
    (by norm_num) (by norm_num) (by decide) (by norm_num)
  exact ⟨by norm_num, by norm_num, by decide, by norm_num, h.1, h.2.2.2.2.2⟩

/-! ### C2: range of the `kelly_fraction` field -/

/-- C2 counterexample.  At the valid input `p = 75`, `o = -110` (the
spec's own worked example) the `kelly_fraction` field is `25` — the
clamped fraction times 100 — which is not in `[0, 0.25]`. -/
theorem kelly_fraction_field_not_fraction :
    (0 : ℚ) ≤ 75 ∧ (75 : ℚ) ≤ 100 ∧ (-110 : ℤ) ≠ 0 ∧
    (calculate_expected_value 75 (-110) 100).kelly_fraction = 25 ∧
    ¬ (calculate_expected_value 75 (-110) 100).kelly_fraction ≤ 1/4 := by
  refine ⟨by norm_num, by norm_num, by decide, ?_, ?_⟩ <;>
    norm_num [calculate_expected_value, round2, pyRound]

/-- C2 amended.  The `kelly_fraction` field is the clamped Kelly fraction
expressed as a percentage (`round(kelly * 100, 2)`), so for every
probability `p ∈ [0,100]`, nonzero odds and bet amount it lies in
`[0, 25]`. -/
theorem kelly_fraction_field_range :
    ∀ (p : ℚ) (o : ℤ) (b : ℚ), 0 ≤ p → p ≤ 100 → o ≠ 0 →
      0 ≤ (calculate_expected_value p o b).kelly_fraction ∧
      (calculate_expected_value p o b).kelly_fraction ≤ 25 := by
  intro p o b _ _ _
  have hshape : (calculate_expected_value p o b).kelly_fraction =
      round2 ((max 0 (min ((p / 100 *
          (if 0 < o then (o : ℚ) / 100 + 1 else 100 / (|o| : ℚ) + 1) - 1) /
          ((if 0 < o then (o : ℚ) / 100 + 1 else 100 / (|o| : ℚ) + 1) - 1)) (1/4))) * 100) := rfl
  set k := max 0 (min ((p / 100 *
      (if 0 < o then (o : ℚ) / 100 + 1 else 100 / (|o| : ℚ) + 1) - 1) /
      ((if 0 < o then (o : ℚ) / 100 + 1 else 100 / (|o| : ℚ) + 1) - 1)) (1/4)) with hk
  have hk0 : 0 ≤ k := le_max_left 0 _
  have hk25 : k ≤ 1/4 := by
    rw [hk]
    rcases le_total ((p / 100 *
        (if 0 < o then (o : ℚ) / 100 + 1 else 100 / (|o| : ℚ) + 1) - 1) /
        ((if 0 < o then (o : ℚ) / 100 + 1 else 100 / (|o| : ℚ) + 1) - 1)) (1/4) with h | h
    · exact max_le (by norm_num) (min_le_right _ _)
    · exact max_le (by norm_num) (min_le_right _ _)
  rw [hshape]
  constructor
  · exact round2_nonneg (by nlinarith)
  · have : k * 100 ≤ ((25 : ℤ) : ℚ) := by push_cast; nlinarith
    have := round2_le_of_le this
    simpa using this

/-- Witness for C2 amended at `p = 75`, `o = -110`, `b = 100`. -/
theorem kelly_fraction_field_range_witness :
    (0 : ℚ) ≤ 75 ∧ (75 : ℚ) ≤ 100 ∧ (-110 : ℤ) ≠ 0 ∧
    0 ≤ (calculate_expected_value 75 (-110) 100).kelly_fraction ∧
    (calculate_expected_value 75 (-110) 100).kelly_fraction ≤ 25 := by
  have h := kelly_fraction_field_range 75 (-110) 100
    (by norm_num) (by norm_num) (by decide)
  exact ⟨by norm_num, by norm_num, by decide, h.1, h.2⟩

/-! ### C3: confidence score range and grade step function -/

lemma gradeLetter_fst (s : ℚ) : (gradeLetter s).1 = gradeOf s := by
  rw [gradeLetter, gradeOf]
  simp only [apply_ite (Prod.fst (α := String) (β := String))]

/-- Number of thresholds (given in decreasing order) at or below `x`,
counted from the first one that applies; an inclusive-lower-bound tier
table in recursive form. -/
def tierFrom : List ℚ → ℚ → ℕ
  | [], _ => 0
  | t :: ts, x => if t ≤ x then ts.length + 1 else tierFrom ts x

lemma tierFrom_le_length (ts : List ℚ) (x : ℚ) : tierFrom ts x ≤ ts.length := by
  induction ts with
  | nil => simp [tierFrom]
  | cons t ts ih =>
    simp only [tierFrom, List.length_cons]
    by_cases h : t ≤ x
    · simp [h]
    · simp [h]; omega

lemma tierFrom_mono (ts : List ℚ) (x y : ℚ) (hxy : x ≤ y) :
    tierFrom ts x ≤ tierFrom ts y := by
  induction ts with
  | nil => simp [tierFrom]
  | cons t ts ih =>
    simp only [tierFrom]
    by_cases hx : t ≤ x
    · have hy : t ≤ y := le_trans hx hxy
      simp [hx, hy]
    · by_cases hy : t ≤ y
      · simp [hx, hy]
        exact le_trans (tierFrom_le_length ts x) (Nat.le_succ _)
      · simp [hx, hy]
        exact ih

lemma gradeRank_gradeOf (x : ℚ) :
    gradeRank (gradeOf x) = tierFrom [95, 90, 85, 80, 75, 70, 65, 60, 55, 50] x := by
  simp only [gradeOf, apply_ite gradeRank]
  norm_num [gradeRank, tierFrom]
  simp +decide

/-- C3.  For every input, the confidence score lies in `[0,100]` and the
returned grade is the pure step function `gradeOf` of the score (so equal
scores get equal grades); and `gradeOf` is non-decreasing with respect to
the grade order, so a higher score never gets a lower grade. -/
theorem confidence_score_range_and_grade :
    (∀ (p : ℚ) (evd : EVData) (f : Option FactorsIn) (s : Option StreakInfoIn),
      0 ≤ (calculate_confidence_score p evd f s).confidence_score ∧
      (calculate_confidence_score p evd f s).confidence_score ≤ 100 ∧
      (calculate_confidence_score p evd f s).grade =
        gradeOf (calculate_confidence_score p evd f s).confidence_score) ∧
    (∀ x y : ℚ, x ≤ y → gradeRank (gradeOf x) ≤ gradeRank (gradeOf y)) := by
  constructor
  · intro p evd f s
    obtain ⟨r, hr⟩ : ∃ r, (calculate_confidence_score p evd f s).confidence_score =
        round1 (min 100 (max 0 r)) := ⟨_, rfl⟩
    have hg : (calculate_confidence_score p evd f s).grade =
        (gradeLetter ((calculate_confidence_score p evd f s).confidence_score)).1 := rfl
    have h0 : (0 : ℚ) ≤ min 100 (max 0 r) := le_min (by norm_num) (le_max_left 0 r)
    have h100 : min 100 (max 0 r) ≤ ((100 : ℤ) : ℚ) := by
      have := min_le_left (100 : ℚ) (max 0 r)
      push_cast
      linarith
    refine ⟨?_, ?_, ?_⟩
    · rw [hr]; exact round1_nonneg h0
    · rw [hr]
      have := round1_le_of_le h100
      push_cast at this
      linarith
    · rw [hg, gradeLetter_fst]
  · intro x y hxy
    rw [gradeRank_gradeOf, gradeRank_gradeOf]
    exact tierFrom_mono _ x y hxy

/-- Witness for C3: the monotonicity clause applied at scores 50 ≤ 60,
where the step function gives D and C. -/
theorem confidence_score_range_and_grade_witness :
    (50 : ℚ) ≤ 60 ∧ gradeRank (gradeOf 50) ≤ gradeRank (gradeOf 60) ∧
    gradeOf 50 = "D" ∧ gradeOf 60 = "C" := by
  refine ⟨by norm_num, confidence_score_range_and_grade.2 50 60 (by norm_num), ?_, ?_⟩ <;>
    norm_num [gradeOf]

/-! ### C7: the factor bonuses of the confidence scorer -/

/-- C7 counterexample.  With a factors record whose `minutes_cv` is `0`
(which is `< 15`), the variance bonus is NOT granted: `if cv and cv < 15`
requires a truthy (nonzero) value, so the factor contribution here is `0`,
not the `0 + 2 + 0 = 2` the claim implies. -/
theorem variance_bonus_skipped_at_zero_cv :
    (0 : ℚ) < 15 ∧
    (calculate_confidence_score 0 ⟨0, 0, 0, 0⟩ (some ⟨"stable", 0, true⟩)
        none).breakdown.factor_contribution = 0 := by
  constructor
  · norm_num
  · have h : (calculate_confidence_score 0 ⟨0, 0, 0, 0⟩ (some ⟨"stable", 0, true⟩)
        none).breakdown.factor_contribution =
        round1 ((if ("stable" : String) = "up" then 2 else 0)
          + (if (0 : ℚ) ≠ 0 ∧ (0 : ℚ) < 15 then 2 else 0)
          + (if true = true then 0 else 1)) := rfl
    rw [h, if_neg (by decide : ¬ ("stable" : String) = "up"),
      if_neg (by norm_num : ¬ ((0 : ℚ) ≠ 0 ∧ (0 : ℚ) < 15)), if_pos rfl]
    norm_num [round1, pyRound]

/-- C7 amended.  With a factors record present, the factor contribution is
exactly the sum of three independent bonuses — `+2` if the minutes trend
is `"up"`, `+2` if `minutes_cv` is nonzero (truthy) and `< 15`, `+1` if
`recent_dnp` is false — and it never exceeds 5. -/
theorem factor_contribution_bonuses :
    ∀ (p : ℚ) (evd : EVData) (f : FactorsIn) (s : Option StreakInfoIn),
      (calculate_confidence_score p evd (some f) s).breakdown.factor_contribution =
        (if f.minutes_trend = "up" then 2 else 0)
          + (if f.minutes_cv ≠ 0 ∧ f.minutes_cv < 15 then 2 else 0)
          + (if f.recent_dnp then 0 else 1) ∧
      (calculate_confidence_score p evd (some f) s).breakdown.factor_contribution ≤ 5 := by
  intro p evd f s
  have hshape : (calculate_confidence_score p evd (some f) s).breakdown.factor_contribution =
      round1 ((if f.minutes_trend = "up" then 2 else 0)
        + (if f.minutes_cv ≠ 0 ∧ f.minutes_cv < 15 then 2 else 0)
        + (if f.recent_dnp then 0 else 1)) := rfl
  rw [hshape]
  rcases ite_eq_or_eq (f.minutes_trend = "up") (2 : ℚ) 0 with h1 | h1 <;>
    rcases ite_eq_or_eq (f.minutes_cv ≠ 0 ∧ f.minutes_cv < 15) (2 : ℚ) 0 with h2 | h2 <;>
    rcases ite_eq_or_eq (f.recent_dnp = true) (0 : ℚ) 1 with h3 | h3 <;>
    rw [h1, h2, h3] <;>
    norm_num [round1, pyRound]

/-! ### C4: the streak detector -/

lemma streakLoop_some (line : ℚ) (d : String) (rest : List ℚ) :
    ∀ (c : ℕ), streakLoop rest line c (some d) =
      (c + (rest.takeWhile (fun w => decide (classifyHit w line = some d))).length, some d) := by
  induction rest with
  | nil => intro c; simp [streakLoop]
  | cons v vs ih =>
    intro c
    simp only [streakLoop]
    cases hc : classifyHit v line with
    | none =>
      rw [List.takeWhile_cons_of_neg (by simp [hc])]
      simp
    | some hit =>
      dsimp only
      by_cases hd : d = hit
      · subst hd
        rw [if_pos rfl, ih (c + 1), List.takeWhile_cons_of_pos (by simp [hc])]
        simp only [List.length_cons, Prod.mk.injEq, and_true]
        omega
      · rw [if_neg hd, List.takeWhile_cons_of_neg (by simp [hc]; exact fun h => hd h.symm)]
        simp

lemma streakLoop_zero_none (obs : List ℚ) (line : ℚ) :
    streakLoop obs line 0 none = (specStreakCount obs line, specStreakType obs line) := by
  cases obs with
  | nil => simp [streakLoop, specStreakCount, specStreakType]
  | cons v rest =>
    simp only [streakLoop, specStreakCount, specStreakType]
    cases hc : classifyHit v line with
    | none => simp
    | some d =>
      dsimp only
      rw [streakLoop_some line d rest 1]

/-- C4 amended.  The streak detector classifies each observation OVER /
UNDER / tie exactly as claimed: for a nonempty sequence of at least
`min_streak` observations the count and type are the maximal same-direction
prefix (a tie or direction change stops the walk without being counted) and
`active = (count ≥ min_streak)`; an empty sequence or fewer than
`min_streak` observations gives `{0, null, false}`; a sequence identical
to the line gives count 0 and null type, with `active = false` whenever
`min_streak ≥ 1` (for `min_streak = 0` the code reports `active = true`
on such input). -/
theorem calculate_streak_spec :
    ∀ (obs : List ℚ) (line : ℚ) (m : ℕ),
      (obs = [] ∨ obs.length < m → calculate_streak obs line m =
        { streak_count := 0, streak_type := none, active := false }) ∧
      (obs ≠ [] → m ≤ obs.length →
        (calculate_streak obs line m).streak_count = specStreakCount obs line ∧
        (calculate_streak obs line m).streak_type = specStreakType obs line ∧
        (calculate_streak obs line m).active =
          decide (m ≤ specStreakCount obs line)) ∧
      ((∀ v ∈ obs, v = line) →
        (calculate_streak obs line m).streak_count = 0 ∧
        (calculate_streak obs line m).streak_type = none ∧
        (1 ≤ m → (calculate_streak obs line m).active = false)) := by
  intro obs line m
  refine ⟨?_, ?_, ?_⟩
  · intro h
    rw [calculate_streak, if_pos h]
  · intro hne hlen
    rw [calculate_streak, if_neg (by push_neg; exact ⟨hne, by omega⟩)]
    rw [streakLoop_zero_none]
    exact ⟨rfl, rfl, rfl⟩
  · intro hall
    by_cases hcond : obs = [] ∨ obs.length < m
    · rw [calculate_streak, if_pos hcond]
      exact ⟨rfl, rfl, fun _ => rfl⟩
    · rw [calculate_streak, if_neg hcond, streakLoop_zero_none]
      push_neg at hcond
      obtain ⟨hne, _⟩ := hcond
      obtain ⟨v, rest, rfl⟩ := List.exists_cons_of_ne_nil hne
      have hv : v = line := hall v (by simp)
      have hcl : classifyHit v line = none := by
        subst hv; simp [classifyHit]
      refine ⟨?_, ?_, ?_⟩
      · simp [specStreakCount, hcl]
      · simp [specStreakType, hcl]
      · intro hm
        simp [specStreakCount, hcl]
        omega

/-- C4 counterexample.  With `min_streak = 0` and a single observation
equal to the line, the code returns `active = true` (count `0 ≥ 0`), not
the `active: false` the claim states for all-tie input. -/
theorem calculate_streak_zero_min_cex :
    (∀ v ∈ [(5 : ℚ)], v = 5) ∧
    calculate_streak [(5 : ℚ)] 5 0 =
      { streak_count := 0, streak_type := none, active := true } := by
  constructor
  · simp
  · norm_num [calculate_streak, streakLoop, classifyHit]

/-- Witness for C4 amended at the spec's worked streak example:
observations `[30, 28, 25]` against line `24` with minimum 2. -/
theorem calculate_streak_spec_witness :
    ([30, 28, 25] : List ℚ) ≠ [] ∧ 2 ≤ ([30, 28, 25] : List ℚ).length ∧
    (calculate_streak [30, 28, 25] (24 : ℚ) 2).streak_count =
      specStreakCount [30, 28, 25] 24 ∧
    (calculate_streak [30, 28, 25] (24 : ℚ) 2).active =
      decide (2 ≤ specStreakCount [30, 28, 25] 24) ∧
    specStreakCount [30, 28, 25] (24 : ℚ) = 3 := by
  have h := (calculate_streak_spec [30, 28, 25] 24 2).2.1 (by simp) (by simp)
  refine ⟨by simp, by simp, h.1, h.2.2, ?_⟩
  norm_num [specStreakCount, classifyHit, List.takeWhile]

/-! ### C8: shooting efficiency -/

lemma filterMap_ite_eq_map_filter {α β : Type} (p : α → Prop) [DecidablePred p]
    (f : α → β) (l : List α) :
    l.filterMap (fun a => if p a then some (f a) else none) =
      (l.filter (fun a => decide (p a))).map f := by
  induction l with
  | nil => rfl
  | cons a l ih =>
    by_cases h : p a
    · simp [List.filterMap_cons, List.filter_cons, h, ih]
    · simp [List.filterMap_cons, List.filter_cons, h, ih]

lemma qualifyingGames_nil_iff (games_list : List Game) :
    qualifyingGames games_list = [] ↔ ∀ g ∈ games_list.take 5, ¬ 0 < g.fga := by
  simp [qualifyingGames, List.filter_eq_nil_iff]

/-- C8 amended.  `shooting_efficiency` is the mean per-game `fgm/fga` over
the first 5 games with attempts, as a percentage rounded to 1 decimal,
whenever that mean is nonzero; and it is null iff no game among the first
5 has `fga > 0` or the mean itself is 0 (Python truthiness of
`avg_fg_pct` also treats a 0.0 average as "no value"). -/
theorem shooting_efficiency_spec :
    ∀ (games_list : List Game),
      (shooting_efficiency games_list = none ↔
        ((∀ g ∈ games_list.take 5, ¬ 0 < g.fga) ∨ specShootingEff games_list = 0)) ∧
      (∀ v, shooting_efficiency games_list = some v →
        v = round1 (specShootingEff games_list * 100)) := by
  intro games_list
  have hfm : (games_list.take 5).filterMap
        (fun g => if 0 < g.fga then some (g.fgm / g.fga) else none) =
      (qualifyingGames games_list).map (fun g => g.fgm / g.fga) :=
    filterMap_ite_eq_map_filter (fun g : Game => 0 < g.fga) (fun g => g.fgm / g.fga)
      (games_list.take 5)
  have hspec : specShootingEff games_list =
      ((qualifyingGames games_list).map (fun g => g.fgm / g.fga)).sum /
        ((qualifyingGames games_list).map (fun g => g.fgm / g.fga)).length := rfl
  simp only [shooting_efficiency, hfm]
  by_cases hq : qualifyingGames games_list = []
  · rw [if_pos (by simp [hq])]
    constructor
    · exact iff_of_true rfl (Or.inl ((qualifyingGames_nil_iff games_list).mp hq))
    · intro v hv
      exact absurd hv (by simp)
  · rw [if_neg (by simp [hq])]
    by_cases havg : ((qualifyingGames games_list).map (fun g => g.fgm / g.fga)).sum /
        ((qualifyingGames games_list).map (fun g => g.fgm / g.fga)).length = 0
    · rw [if_pos havg]
      constructor
      · simp only [true_iff]
        right
        rw [hspec]
        exact havg
      · intro v hv
        exact absurd hv (by simp)
    · rw [if_neg havg]
      constructor
      · constructor
        · intro h
          exact absurd h (by simp)
        · intro h
          rcases h with h | h
          · exact absurd ((qualifyingGames_nil_iff games_list).mpr h) hq
          · rw [hspec] at h
            exact absurd h havg
      · intro v hv
        rw [hspec]
        exact (Option.some_inj.mp hv).symm

/-- C8 counterexample.  A single game with 5 attempts and 0 makes: the
first 5 observations do contain a game with `fga > 0`, yet the result is
null because the 0.0 average is falsy. -/
theorem shooting_efficiency_zero_mean_cex :
    (0 : ℚ) < (Game.mk 0 30 false 0 5).fga ∧
    shooting_efficiency [Game.mk 0 30 false 0 5] = none := by
  constructor
  · norm_num
  · have hfm : (([Game.mk 0 30 false 0 5] : List Game).take 5).filterMap
        (fun g => if 0 < g.fga then some (g.fgm / g.fga) else none) = [0] := by
      norm_num [List.filterMap_cons]
    unfold shooting_efficiency
    rw [hfm]
    norm_num

/-- Witness for C8 amended: one game with 5 of 10 shooting gives 50.0. -/
theorem shooting_efficiency_spec_witness :
    shooting_efficiency [Game.mk 0 30 false 5 10] = some 50 ∧
    (50 : ℚ) = round1 (specShootingEff [Game.mk 0 30 false 5 10] * 100) := by
  have hev : shooting_efficiency [Game.mk 0 30 false 5 10] = some 50 := by
    have hfm : (([Game.mk 0 30 false 5 10] : List Game).take 5).filterMap
        (fun g => if 0 < g.fga then some (g.fgm / g.fga) else none) = [1/2] := by
      norm_num [List.filterMap_cons]
    unfold shooting_efficiency
    rw [hfm]
    norm_num [round1, pyRound]
  exact ⟨hev, (shooting_efficiency_spec [Game.mk 0 30 false 5 10]).2 50 hev⟩

/-! ### C5: minutes variance -/

lemma sum_sq_sub (l : List ℚ) (m : ℚ) :
    (l.map (fun x => (x - m) ^ 2)).sum =
      (l.map (fun x => x ^ 2)).sum - 2 * m * l.sum + l.length * m ^ 2 := by
  induction l with
  | nil => simp
  | cons a l ih =>
    simp only [List.map_cons, List.sum_cons, List.length_cons, ih]
    push_cast
    ring

lemma sum_sq_mean (l : List ℚ) (h : l ≠ []) :
    (l.map (fun x => (x - listMean l) ^ 2)).sum =
      (l.map (fun x => x ^ 2)).sum - l.sum ^ 2 / l.length := by
  have hn : (l.length : ℚ) ≠ 0 := by
    simp only [ne_eq, Nat.cast_eq_zero, List.length_eq_zero]
    exact h
  rw [sum_sq_sub, listMean]
  field_simp
  ring

lemma pandasStd_eq_sampleStd (l : List ℚ) (h : l ≠ []) : pandasStd l = sampleStd l := by
  unfold pandasStd sampleStd
  rw [sum_sq_mean l h]

/-- C5 amended.  For at least 2 observations, the `minutes_variance` field
is the SAMPLE (`ddof = 1`, pandas default) standard deviation of the
minutes — not the population one — rounded to 1 decimal. -/
theorem minutes_variance_is_sample_std :
    ∀ (games_list : List Game), 2 ≤ games_list.length →
      minutes_variance games_list =
        round1R (sampleStd (games_list.map (fun g => g.minutes))) := by
  intro gl h
  unfold minutes_variance
  rw [if_pos (by simp; omega)]
  rw [pandasStd_eq_sampleStd]
  intro hnil
  have : gl.map (fun g => g.minutes) ≠ [] := by
    simp only [ne_eq, List.map_eq_nil_iff]
    intro h0
    rw [h0] at h
    simp at h
  exact this hnil

/-- C5 counterexample.  For minutes `[10, 20]` the code (sample std
`sqrt 50 ≈ 7.07`) reports `7.1`, while the population standard deviation
is exactly `5`, reported `5.0`: the claim's reference value differs from
the code's. -/
theorem minutes_variance_population_cex :
    minutes_variance [Game.mk 0 10 false 0 0, Game.mk 0 20 false 0 0] = 71/10 ∧
    round1R (popStd [10, 20]) = 5 ∧ ((71 : ℝ)/10 ≠ 5) := by
  have hmean : listMean [10, 20] = 15 := by norm_num [listMean]
  have hsq : (([10, 20] : List ℚ).map (fun x => (x - listMean [10, 20]) ^ 2)).sum = 50 := by
    rw [hmean]; norm_num
  have hsqrt50lo : (141 : ℝ)/20 < Real.sqrt 50 :=
    (Real.lt_sqrt (by norm_num)).mpr (by norm_num)
  have hsqrt50hi : Real.sqrt 50 < 71/10 :=
    (Real.sqrt_lt' (by norm_num)).mpr (by norm_num)
  refine ⟨?_, ?_, by norm_num⟩
  · have hps : pandasStd [10, 20] = Real.sqrt 50 := by
      unfold pandasStd
      rw [hsq]
      congr 1
      push_cast
      norm_num
    have hmap : (([Game.mk 0 10 false 0 0, Game.mk 0 20 false 0 0] : List Game).map
        (fun g => g.minutes)) = [10, 20] := rfl
    have hmv : minutes_variance [Game.mk 0 10 false 0 0, Game.mk 0 20 false 0 0] =
        round1R (pandasStd [10, 20]) := by
      unfold minutes_variance
      rw [hmap, if_pos (by norm_num)]
    have hfl : ⌊Real.sqrt 50 * 10⌋ = 70 := by
      rw [Int.floor_eq_iff]
      constructor
      · push_cast; nlinarith
      · push_cast; nlinarith
    have hpr : pyRoundR (Real.sqrt 50 * 10) = 71 := by
      simp only [pyRoundR, hfl]
      rw [if_neg (by push_cast; nlinarith), if_pos (by push_cast; nlinarith)]
      norm_num
    rw [hmv, hps, round1R, hpr]
    norm_num
  · have harg : (((50 : ℚ) : ℝ)) / (([10, 20] : List ℚ).length : ℝ) = 25 := by
      push_cast; norm_num
    have hpop : popStd [10, 20] = 5 := by
      unfold popStd
      rw [hsq, harg, show (25 : ℝ) = 5 ^ 2 by norm_num,
        Real.sqrt_sq (by norm_num : (0 : ℝ) ≤ 5)]
    have hfl : ⌊(5 : ℝ) * 10⌋ = 50 := by norm_num
    have hpr : pyRoundR ((5 : ℝ) * 10) = 50 := by
      simp only [pyRoundR, hfl]
      rw [if_pos (by push_cast; norm_num)]
    rw [hpop, round1R, hpr]
    norm_num

/-- Witness for C5 amended at minutes `[10, 20]`. -/
theorem minutes_variance_is_sample_std_witness :
    2 ≤ ([Game.mk 0 10 false 0 0, Game.mk 0 20 false 0 0] : List Game).length ∧
    minutes_variance [Game.mk 0 10 false 0 0, Game.mk 0 20 false 0 0] =
      round1R (sampleStd (([Game.mk 0 10 false 0 0, Game.mk 0 20 false 0 0] :
        List Game).map (fun g => g.minutes))) := by
  exact ⟨by norm_num, minutes_variance_is_sample_std _ (by norm_num)⟩

/-! ### C9 and C10: the tactical filter engine -/

/-- The conjunction of the seven (conditionally enabled) filter criteria,
in the normal form produced by collapsing the sequential stages. -/
def tacticalPred (f : TacticalFilters) (e : FilterEdge) : Bool :=
  (!truthyQ f.min_ev || decide (f.min_ev.getD 0 ≤ e.ev))
    && ((!truthyB f.exclude_rotation_changes || !e.rotation_change)
    && ((!truthyB f.exclude_injuries || !e.injury_risk)
    && ((!truthyB f.positive_ev_only || e.is_positive_ev)
    && ((!truthyQ f.min_market_edge || decide (f.min_market_edge.getD 0 ≤ e.market_edge))
    && ((!truthyS f.min_grade || decide (grade_order (f.min_grade.getD "") ≤ e.grade_numeric))
    && (!truthyQ f.min_probability || decide (f.min_probability.getD 0 ≤ e.probability)))))))

lemma ite_filter_step (c : Bool) (p : FilterEdge → Bool) (l : List FilterEdge) :
    (if c = true then l.filter p else l) = l.filter (fun e => !c || p e) := by
  cases c
  · simp
  · simp

lemma apply_eq_filter (edges : List FilterEdge) (f : TacticalFilters) :
    apply_tactical_filters edges f = edges.filter (tacticalPred f) := by
  simp only [apply_tactical_filters, filter_by_probability, filter_by_grade,
    filter_by_market_edge, filter_positive_ev, ite_filter_step]
  simp only [List.filter_filter]
  rfl

/-- C9.  `apply_tactical_filters` is idempotent: filtering an
already-filtered list again with the same configuration returns the same
list. -/
theorem apply_tactical_filters_idempotent :
    ∀ (edges : List FilterEdge) (filters : TacticalFilters),
      apply_tactical_filters (apply_tactical_filters edges filters) filters =
        apply_tactical_filters edges filters := by
  intro edges f
  rw [apply_eq_filter, apply_eq_filter, List.filter_filter]
  exact List.filter_congr (fun e _ => Bool.and_self _)

lemma normQ_clause (v : Option ℚ) (x : ℚ) :
    (!truthyQ (normQ v) || decide ((normQ v).getD 0 ≤ x)) =
      (!truthyQ v || decide (v.getD 0 ≤ x)) := by
  cases v with
  | none => rfl
  | some q =>
    by_cases h : q = 0
    · simp [normQ, truthyQ, h]
    · simp [normQ, truthyQ, h]

lemma normS_clause (v : Option String) (x : ℚ) :
    (!truthyS (normS v) || decide (grade_order ((normS v).getD "") ≤ x)) =
      (!truthyS v || decide (grade_order (v.getD "") ≤ x)) := by
  cases v with
  | none => rfl
  | some s =>
    by_cases h : s = ""
    · simp [normS, truthyS, h]
    · simp [normS, truthyS, h]

lemma normB_clause (v : Option Bool) (b : Bool) :
    (!truthyB (normB v) || b) = (!truthyB v || b) := by
  cases v with
  | none => rfl
  | some x => cases x <;> simp [normB, truthyB]

/-- C10.  A falsy configured value (0 for the numeric thresholds, `False`
for the boolean toggles, `""` for `min_grade`) behaves exactly like an
absent key — normalizing falsy values to absent keys does not change the
result; in particular a configuration whose only entry is `min_ev = 0`
filters nothing at all (so negative-EV edges are kept). -/
theorem falsy_filter_values_are_noops :
    (∀ (edges : List FilterEdge) (filters : TacticalFilters),
      apply_tactical_filters edges filters =
        apply_tactical_filters edges (normalizeFilters filters)) ∧
    (∀ (edges : List FilterEdge),
      apply_tactical_filters edges
        { min_probability := none, min_grade := none, min_market_edge := none
          positive_ev_only := none, exclude_injuries := none
          exclude_rotation_changes := none, min_ev := some 0 } = edges) := by
  constructor
  · intro edges f
    rw [apply_eq_filter, apply_eq_filter]
    refine List.filter_congr (fun e _ => ?_)
    simp only [tacticalPred, normalizeFilters]
    rw [normQ_clause, normB_clause, normB_clause, normB_clause, normQ_clause,
      normS_clause, normQ_clause]
  · intro edges
    simp [apply_tactical_filters, truthyQ, truthyB, truthyS]

/-! ### C6: parlay recommendations -/

lemma length_combinations {α : Type} (k : ℕ) (l : List α) :
    (combinations k l).length = l.length.choose k := by
  induction l generalizing k with
  | nil => cases k <;> simp [combinations]
  | cons x xs ih =>
    cases k with
    | zero => simp [combinations]
    | succ k =>
      simp only [combinations, List.length_append, List.length_map, ih k, ih (k + 1),
        List.length_cons, Nat.choose_succ_succ]

lemma mem_combinations_length {α : Type} (k : ℕ) (l : List α) (c : List α)
    (hc : c ∈ combinations k l) : c.length = k := by
  induction l generalizing k c with
  | nil =>
    cases k with
    | zero => simp only [combinations, List.mem_singleton] at hc; subst hc; rfl
    | succ k => simp [combinations] at hc
  | cons x xs ih =>
    cases k with
    | zero => simp only [combinations, List.mem_singleton] at hc; subst hc; rfl
    | succ k =>
      simp only [combinations, List.mem_append, List.mem_map] at hc
      rcases hc with ⟨a, ha, rfl⟩ | hc
      · simp [ih k a ha]
      · exact ih (k + 1) c hc

lemma mem_insertByScore {p q : Parlay} {l : List Parlay} :
    q ∈ insertByScore p l ↔ q = p ∨ q ∈ l := by
  induction l with
  | nil => simp [insertByScore]
  | cons r rs ih =>
    simp only [insertByScore]
    by_cases h : r.score < p.score
    · rw [if_pos h]
      simp [or_comm, or_assoc, or_left_comm]
    · rw [if_neg h]
      simp only [List.mem_cons, ih]
      tauto

lemma sortByScoreDesc_mem {q : Parlay} {l : List Parlay} :
    q ∈ sortByScoreDesc l ↔ q ∈ l := by
  induction l with
  | nil => simp [sortByScoreDesc]
  | cons p ps ih => simp [sortByScoreDesc, mem_insertByScore, ih]

lemma pairwise_insertByScore {p : Parlay} {l : List Parlay}
    (h : l.Pairwise (fun a b => b.score ≤ a.score)) :
    (insertByScore p l).Pairwise (fun a b => b.score ≤ a.score) := by
  induction l with
  | nil => simp [insertByScore]
  | cons q qs ih =>
    rw [List.pairwise_cons] at h
    obtain ⟨hq, hqs⟩ := h
    simp only [insertByScore]
    by_cases hlt : q.score < p.score
    · rw [if_pos hlt, List.pairwise_cons]
      constructor
      · intro b hb
        rcases List.mem_cons.mp hb with rfl | hb
        · exact le_of_lt hlt
        · exact le_trans (hq b hb) (le_of_lt hlt)
      · rw [List.pairwise_cons]
        exact ⟨hq, hqs⟩
    · rw [if_neg hlt, List.pairwise_cons]
      constructor
      · intro b hb
        rcases mem_insertByScore.mp hb with rfl | hb
        · exact le_of_not_lt hlt
        · exact hq b hb
      · exact ih hqs

lemma pairwise_sortByScoreDesc (l : List Parlay) :
    (sortByScoreDesc l).Pairwise (fun a b => b.score ≤ a.score) := by
  induction l with
  | nil => simp [sortByScoreDesc]
  | cons p ps ih => exact pairwise_insertByScore ih

/-- C6.  `recommend_parlays` returns, for sizes 2/3/4/6, the top 5/5/5/3
of `find_best_parlays`; `find_best_parlays` restricts to edges with
probability ≥ 70, enumerates all `C(n, k)` subsets, returns at most the
requested number of parlays sorted by `score = expected_value + edge·10`
descending, every returned parlay has `k` legs all standardized to `-110`
odds with combined probability the product of the leg probabilities (as a
percentage, rounded to 2 decimals); with fewer than `k` qualifying legs
the result is the empty list (the function is total, so it never
raises). -/
theorem recommend_parlays_spec :
    ∀ (edges : List ParlayEdge),
      recommend_parlays edges =
        { two_man := find_best_parlays edges 2 5
          three_man := find_best_parlays edges 3 5
          four_man := find_best_parlays edges 4 5
          six_man := find_best_parlays edges 6 3 } ∧
      (∀ k N, (edges.filter (fun e => decide (70 ≤ e.probability))).length < k →
        find_best_parlays edges k N = []) ∧
      (∀ k N, (find_best_parlays edges k N).length ≤ N) ∧
      (∀ k, (combinations k (edges.filter (fun e => decide (70 ≤ e.probability)))).length =
        Nat.choose (edges.filter (fun e => decide (70 ≤ e.probability))).length k) ∧
      (∀ k N, (find_best_parlays edges k N).Pairwise (fun a b => b.score ≤ a.score)) ∧
      (∀ k N p, 2 ≤ k → p ∈ find_best_parlays edges k N →
        p.bets.length = k ∧
        (∀ b ∈ p.bets, b.odds = -110) ∧
        p.total_probability =
          round2 ((p.bets.map (fun b => b.probability / 100)).prod * 100) ∧
        p.score = p.expected_value + p.edge * 10) := by
  intro edges
  refine ⟨rfl, ?_, ?_, ?_, ?_, ?_⟩
  · intro k N hlt
    rw [find_best_parlays]
    by_cases h1 : edges.length < k
    · rw [if_pos h1]
    · rw [if_neg h1, if_pos hlt]
  · intro k N
    rw [find_best_parlays]
    by_cases h1 : edges.length < k
    · rw [if_pos h1]
      simp
    · rw [if_neg h1]
      dsimp only
      by_cases h2 : (edges.filter (fun e => decide (70 ≤ e.probability))).length < k
      · rw [if_pos h2]
        simp
      · rw [if_neg h2]
        exact List.length_take_le N _
  · intro k
    exact length_combinations k _
  · intro k N
    rw [find_best_parlays]
    by_cases h1 : edges.length < k
    · rw [if_pos h1]
      simp
    · rw [if_neg h1]
      dsimp only
      by_cases h2 : (edges.filter (fun e => decide (70 ≤ e.probability))).length < k
      · rw [if_pos h2]
        simp
      · rw [if_neg h2]
        exact List.Pairwise.sublist (List.take_sublist _ _) (pairwise_sortByScoreDesc _)
  · intro k N p hk hp
    rw [find_best_parlays] at hp
    by_cases h1 : edges.length < k
    · rw [if_pos h1] at hp
      simp at hp
    · rw [if_neg h1] at hp
      by_cases h2 : (edges.filter (fun e => decide (70 ≤ e.probability))).length < k
      · rw [if_pos h2] at hp
        simp at hp
      · rw [if_neg h2] at hp
        have hp2 : p ∈ sortByScoreDesc
            ((combinations k (edges.filter (fun e => decide (70 ≤ e.probability)))).filterMap
              (fun combo =>
                match calculate_parlay_payout (combo.map mkParlayBet) with
                | none => none
                | some payout_info => some
                    { bets := combo.map mkParlayBet
                      payout := payout_info
                      total_probability := payout_info.combined_probability
                      expected_value := payout_info.expected_value
                      edge := payout_info.edge
                      score := payout_info.expected_value + payout_info.edge * 10 })) :=
          (List.take_sublist _ _).subset hp
        obtain ⟨combo, hcombo, hf⟩ := List.mem_filterMap.mp (sortByScoreDesc_mem.mp hp2)
        have hklen : combo.length = k := mem_combinations_length k _ combo hcombo
        have hlen2 : ¬ (combo.map mkParlayBet).length < 2 := by
          rw [List.length_map, hklen]
          omega
        rw [calculate_parlay_payout, if_neg hlen2] at hf
        dsimp only at hf
        rw [Option.some_inj] at hf
        subst hf
        refine ⟨?_, ?_, rfl, rfl⟩
        · rw [List.length_map, hklen]
        · intro b hb
          obtain ⟨e, _, rfl⟩ := List.mem_map.mp hb
          rfl

/-- Witness for C6 on two concrete edges with probabilities 80 and 75:
size 3 has too few legs and returns `[]`; size 2 yields a parlay whose
legs are both standardized to `-110`. -/
theorem recommend_parlays_spec_witness :
    (([ParlayEdge.mk "a" 0 "" 80 0, ParlayEdge.mk "b" 0 "" 75 0] : List ParlayEdge).filter
        (fun e => decide (70 ≤ e.probability))).length < 3 ∧
    find_best_parlays [ParlayEdge.mk "a" 0 "" 80 0, ParlayEdge.mk "b" 0 "" 75 0] 3 5 = [] ∧
    (∃ p, p ∈ find_best_parlays
        [ParlayEdge.mk "a" 0 "" 80 0, ParlayEdge.mk "b" 0 "" 75 0] 2 5 ∧
      p.bets.length = 2 ∧ (∀ b ∈ p.bets, b.odds = -110) ∧
      p.score = p.expected_value + p.edge * 10) := by
  have hfilter : ([ParlayEdge.mk "a" 0 "" 80 0, ParlayEdge.mk "b" 0 "" 75 0] :
      List ParlayEdge).filter (fun e => decide (70 ≤ e.probability)) =
      [ParlayEdge.mk "a" 0 "" 80 0, ParlayEdge.mk "b" 0 "" 75 0] := by
    norm_num [List.filter]
  have hlt : (([ParlayEdge.mk "a" 0 "" 80 0, ParlayEdge.mk "b" 0 "" 75 0] :
      List ParlayEdge).filter (fun e => decide (70 ≤ e.probability))).length < 3 := by
    rw [hfilter]
    norm_num
  have h := recommend_parlays_spec [ParlayEdge.mk "a" 0 "" 80 0, ParlayEdge.mk "b" 0 "" 75 0]
  refine ⟨hlt, h.2.1 3 5 hlt, ?_⟩
  have hcombos : combinations 2 (([ParlayEdge.mk "a" 0 "" 80 0, ParlayEdge.mk "b" 0 "" 75 0] :
      List ParlayEdge).filter (fun e => decide (70 ≤ e.probability))) =
      [[ParlayEdge.mk "a" 0 "" 80 0, ParlayEdge.mk "b" 0 "" 75 0]] := by
    rw [hfilter]
    rfl
  have heval : ∃ p, find_best_parlays
      [ParlayEdge.mk "a" 0 "" 80 0, ParlayEdge.mk "b" 0 "" 75 0] 2 5 = [p] := by
    rw [find_best_parlays, if_neg (by norm_num)]
    dsimp only
    rw [if_neg (by rw [hfilter]; norm_num), hcombos, List.filterMap_cons]
    rw [calculate_parlay_payout, if_neg (by norm_num)]
    dsimp only
    rw [List.filterMap_nil]
    simp only [sortByScoreDesc, insertByScore, List.take_succ_cons, List.take_nil]
    exact ⟨_, rfl⟩
  obtain ⟨p, hpform⟩ := heval
  have hpmem : p ∈ find_best_parlays
      [ParlayEdge.mk "a" 0 "" 80 0, ParlayEdge.mk "b" 0 "" 75 0] 2 5 := by
    rw [hpform]
    simp
  have hc := h.2.2.2.2.2 2 5 p (by norm_num) hpmem
  exact ⟨p, hpmem, hc.1, hc.2.1, hc.2.2.2⟩

end NbaEdge
